import Mathlib

/-!
Shallow embedding of the Backstory-Consistency-Checker claim pipeline
(src/claim_evaluation.py, src/backstory_decision.py, src/backstory_decomposer.py,
src/claim_importance.py, src/claim_validator.py, src/evidence_retrieval.py,
src/run_batch.py), together with theorems settling the frozen claims.

Modelling conventions:
  * Python strings are Lean `String` / `List Char`; Python float arithmetic is
    modelled exactly over `ℚ` (all constants in the source are short decimals).
  * The transcendental float functions `math.log` and `math.sqrt` used by the
    TF-IDF retriever, the `hashlib.sha256` hex digest used for claim ids, and
    the random `uuid.uuid4().hex` used by the batch repair step are abstracted
    as function parameters; every other operation is translated directly.
  * Python regular expressions used by the source are embedded via the small
    pattern language `Pat` below, which covers exactly the constructs the
    source uses (literals, character classes, optional character classes,
    whitespace and word-character repetitions, the dot-star, alternation of
    literals, and word boundaries).
  * Python dicts that may lack a key are modelled with `Option` fields and
    `Option.getD`, mirroring `dict.get(key, default)`.
-/

namespace Backstory

/-- Whitespace characters recognised by Python `str.split`, `str.strip` and
the regex class `\s` (ASCII range, which is all the source feeds it). -/
def isSpaceChar (c : Char) : Bool :=
  c = ' ' || c = '\t' || c = '\n' || c = '\r' || c = '\x0b' || c = '\x0c'

/-- Characters matched by the Python regex class `\w` (ASCII range). -/
def isWordChar (c : Char) : Bool :=
  c.isAlphanum || c = '_'

/-- Characters in the Python regex class `[A-Z]`. -/
def isUpperAZ (c : Char) : Bool :=
  'A' ≤ c && c ≤ 'Z'

/-- Python `str.lower` on a character sequence (ASCII case folding). -/
def lowerList (t : List Char) : List Char :=
  t.map Char.toLower

/-- Python `str.strip()`: drop leading and trailing whitespace. -/
def stripChars (t : List Char) : List Char :=
  ((t.dropWhile isSpaceChar).reverse.dropWhile isSpaceChar).reverse

/-- Length of the maximal run of characters satisfying `p` at the head. -/
def runLen (p : Char → Bool) (t : List Char) : Nat :=
  (t.takeWhile p).length

/-- Embedded pattern language covering the regex constructs the source uses. -/
inductive Pat where
  /-- a literal character sequence -/
  | lit : List Char → Pat
  /-- a character class `[...]`: one character from the list -/
  | cls : List Char → Pat
  /-- an optional character class `[...]?` -/
  | optCls : List Char → Pat
  /-- the class `[A-Z]` -/
  | upperAZ : Pat
  /-- the repetition `\s+` -/
  | ws1 : Pat
  /-- the repetition `\s*` -/
  | wsStar : Pat
  /-- the repetition `\w+` -/
  | wPlus : Pat
  /-- the repetition `\w*` -/
  | wStar : Pat
  /-- the repetition `.*` (any characters except newline) -/
  | dotStar : Pat
  /-- an alternation of literal sequences `(a|b|...)` -/
  | alt : List (List Char) → Pat
  /-- the word boundary `\b` -/
  | bnd : Pat
  /-- concatenation of two patterns -/
  | cat : Pat → Pat → Pat

/-- Whether the character before the current position is a word character. -/
def prevIsWord : Option Char → Bool
  | none => false
  | some c => isWordChar c

/-- Whether the character at the current position is a word character. -/
def headIsWord : List Char → Bool
  | [] => false
  | c :: _ => isWordChar c

/-- Lengths `1..n` (for `\s+`-style repetitions over a run of length `n`). -/
def lensFrom1 (n : Nat) : List Nat :=
  (List.range n).map (· + 1)

/-- Lengths `0..n` (for `\s*`-style repetitions over a run of length `n`). -/
def lensFrom0 (n : Nat) : List Nat :=
  List.range (n + 1)

/-- All lengths with which pattern `p` can match at the head of `t`, where
`prev` is the character immediately before `t` in the searched text (used by
word boundaries). -/
def matchLens : Pat → Option Char → List Char → List Nat
  | .lit s, _, t => if t.take s.length = s then [s.length] else []
  | .cls cs, _, t =>
      match t with
      | c :: _ => if cs.contains c then [1] else []
      | [] => []
  | .optCls cs, _, t =>
      match t with
      | c :: _ => if cs.contains c then [0, 1] else [0]
      | [] => [0]
  | .upperAZ, _, t =>
      match t with
      | c :: _ => if isUpperAZ c then [1] else []
      | [] => []
  | .ws1, _, t => lensFrom1 (runLen isSpaceChar t)
  | .wsStar, _, t => lensFrom0 (runLen isSpaceChar t)
  | .wPlus, _, t => lensFrom1 (runLen isWordChar t)
  | .wStar, _, t => lensFrom0 (runLen isWordChar t)
  | .dotStar, _, t => lensFrom0 (runLen (fun c => c ≠ '\n') t)
  | .alt ls, _, t =>
      ls.filterMap fun s => if t.take s.length = s then some s.length else none
  | .bnd, prev, t => if prevIsWord prev ≠ headIsWord t then [0] else []
  | .cat p q, prev, t =>
      (matchLens p prev t).flatMap fun l1 =>
        let prev2 : Option Char :=
          match (t.take l1).getLast? with
          | some c => some c
          | none => prev
        (matchLens q prev2 (t.drop l1)).map (l1 + ·)

/-- Whether `p` matches somewhere in `t`, scanning every start position
(`re.search`); `prev` is the character before `t`. -/
def searchFrom (p : Pat) : Option Char → List Char → Bool
  | prev, [] => !(matchLens p prev []).isEmpty
  | prev, c :: rest =>
      !(matchLens p prev (c :: rest)).isEmpty || searchFrom p (some c) rest

/-- Python `re.search(p, t) is not None`. -/
def patSearch (p : Pat) (t : List Char) : Bool :=
  searchFrom p none t

/-- Literal pattern from a string. -/
def plit (s : String) : Pat :=
  .lit s.toList

/-- Concatenation of a list of patterns. -/
def pcat : List Pat → Pat
  | [] => .lit []
  | [p] => p
  | p :: ps => .cat p (pcat ps)

/-- Pattern `\bw\b` for a literal word `w`. -/
def pword (s : String) : Pat :=
  pcat [.bnd, plit s, .bnd]

/-- Pattern `\ba\s+b\b` for two literal words. -/
def pword2 (a b : String) : Pat :=
  pcat [.bnd, plit a, .ws1, plit b, .bnd]

/-- Pattern `\ba\s+b\s+c\b` for three literal words. -/
def pword3 (a b c : String) : Pat :=
  pcat [.bnd, plit a, .ws1, plit b, .ws1, plit c, .bnd]

/-- Pattern `\bws?\b` (optional plural `s`). -/
def pwordOptS (s : String) : Pat :=
  pcat [.bnd, plit s, .optCls ['s'], .bnd]

/-- Pattern `\bas?\s+b\b`. -/
def pwordOptS2 (a b : String) : Pat :=
  pcat [.bnd, plit a, .optCls ['s'], .ws1, plit b, .bnd]

end Backstory

namespace Backstory

/-! ### Tokenization and claim evaluation (src/claim_evaluation.py) -/

/-- Replacement step of the regex substitution in `_tokenize_for_matching`
and `_tokenize`: each character outside `\w` and `\s` becomes a space. -/
def subNonWordToSpace (t : List Char) : List Char :=
  t.map fun c => if isWordChar c || isSpaceChar c then c else ' '

/-- Token accumulator loop for `splitWS`; `acc` holds the reversed current
token. -/
def splitWSAux : List Char → List Char → List (List Char)
  | acc, [] => if acc.isEmpty then [] else [acc.reverse]
  | acc, c :: rest =>
      if isSpaceChar c then
        if acc.isEmpty then splitWSAux [] rest
        else acc.reverse :: splitWSAux [] rest
      else splitWSAux (c :: acc) rest

/-- Python `str.split()` with no argument: split on whitespace runs,
dropping empty pieces. -/
def splitWS (t : List Char) : List (List Char) :=
  splitWSAux [] t

/-- Embedding of `_tokenize_for_matching`: lowercase, replace punctuation by
spaces, split on whitespace, keep tokens longer than 2 characters, and form
the set of them (a duplicate-free list; only membership and cardinality of
this set are consumed downstream). -/
def tokenize_for_matching (s : String) : List (List Char) :=
  (((splitWS (subNonWordToSpace (lowerList s.toList))).filter
      fun tok => 2 < tok.length)).dedup

/-- Negation regex patterns of `_detect_negation_patterns`, in source order.
`[sd]?`, `[sed]?` are optional character classes and `contra\w*` ends in a
word-character repetition, exactly as in the source. -/
def negationPats : List Pat :=
  [ pword "not", pword "never", pword "no", pword "none",
    pword "neither", pword "nor", pword "without",
    pcat [.bnd, plit "refuse", .optCls ['s', 'd'], .bnd],
    pcat [.bnd, plit "denie", .optCls ['s', 'd'], .bnd],
    pcat [.bnd, plit "reject", .optCls ['s', 'e', 'd'], .bnd],
    pcat [.bnd, plit "oppose", .optCls ['s', 'd'], .bnd],
    pword "against",
    pcat [.bnd, plit "contra", .wStar, .bnd] ]

/-- Embedding of `_detect_negation_patterns`: lowercase the text and search
each negation pattern. -/
def detect_negation_patterns (t : List Char) : Bool :=
  negationPats.any fun p => patSearch p (lowerList t)

/-- Scan of the haystack for `firstIdxOfSub`, carrying the current index. -/
def firstIdxOfSubGo (needle : List Char) (i : Nat) : List Char → Option Nat
  | [] => if needle.isPrefixOf [] then some i else none
  | c :: rest =>
      if needle.isPrefixOf (c :: rest) then some i
      else firstIdxOfSubGo needle (i + 1) rest

/-- Index of the leftmost occurrence of `needle` in `hay`
(Python `str.find`, `none` for `-1`). -/
def firstIdxOfSub (needle hay : List Char) : Option Nat :=
  firstIdxOfSubGo needle 0 hay

/-- Python `needle in hay` substring containment. -/
def containsSub (needle hay : List Char) : Bool :=
  (firstIdxOfSub needle hay).isSome

/-- The 50-character context window around position `pos` of `t`:
`t[max 0 (pos-50) : min (len t) (pos+50)]`. -/
def contextWindow (t : List Char) (pos : Nat) : List Char :=
  let start := pos - 50
  let stop := min t.length (pos + 50)
  (t.drop start).take (stop - start)

/-- Whether the context window around the leftmost occurrence of `tok` in the
lowercased evidence contains a negation marker (the loop body shared by
`_detect_support_patterns` and `_detect_contradiction_patterns`). -/
def tokenWindowNegated (evLower : List Char) (tok : List Char) : Bool :=
  match firstIdxOfSub tok evLower with
  | some pos => detect_negation_patterns (contextWindow evLower pos)
  | none => false

/-- Embedding of `_detect_support_patterns`. -/
def detect_support_patterns (claimText evidenceText : String) : Bool :=
  let claimTokens := tokenize_for_matching claimText
  let evidenceTokens := tokenize_for_matching evidenceText
  let overlap := claimTokens.filter (evidenceTokens.contains ·)
  if claimTokens = [] then false
  else
    let ratio : ℚ := (overlap.length : ℚ) / (claimTokens.length : ℚ)
    if 1/4 < ratio then
      if detect_negation_patterns evidenceText.toList then
        let evLower := lowerList evidenceText.toList
        !(overlap.any fun tok => tokenWindowNegated evLower tok)
      else true
    else false

/-- Contrast keywords of `_detect_contradiction_patterns`, in source order. -/
def contradictionKeywords : List (List Char) :=
  [ "contrary".toList, "opposite".toList, "however".toList, "but".toList,
    "although".toList, "despite".toList, "instead".toList, "rather".toList,
    "unlike".toList, "whereas".toList ]

/-- Embedding of `_detect_contradiction_patterns`. -/
def detect_contradiction_patterns (claimText evidenceText : String) : Bool :=
  let claimTokens := tokenize_for_matching claimText
  let evidenceTokens := tokenize_for_matching evidenceText
  let overlap := claimTokens.filter (evidenceTokens.contains ·)
  if claimTokens = [] then false
  else
    let ratio : ℚ := (overlap.length : ℚ) / (claimTokens.length : ℚ)
    let evLower := lowerList evidenceText.toList
    (decide (1/5 < ratio) && overlap.any fun tok => tokenWindowNegated evLower tok)
      || contradictionKeywords.any fun kw =>
           containsSub kw evLower && decide (3/20 < ratio)

/-- Claim record produced by the decomposer (dataclass `Claim`); the
`importance_weight` enrichment added later by the weigher is tracked
separately because no embedded consumer reads it back. -/
structure Claim where
  claim_id : String
  claim_type : String
  claim_text : String
  confidence : ℚ
  core_trait : Bool
deriving DecidableEq, Repr

/-- Evidence item dict produced by `retrieve_evidence_for_claim`. -/
structure EvidenceItem where
  chunk_id : String
  text : String
  position : Nat
  relevance_score : ℚ
deriving DecidableEq, Repr

/-- Verdict dict returned by `evaluate_claim`. Its fields are exactly the four
keys of the literal dict in the source: in particular there is no
`core_trait` key. -/
structure Verdict where
  claim_id : String
  status : String
  supporting_evidence : List EvidenceItem
  contradicting_evidence : List EvidenceItem
deriving DecidableEq, Repr

/-- Classification loop of `evaluate_claim`: returns the pair
(supporting_evidence, contradicting_evidence) in evidence order. -/
def classifyEvidence (claimText : String) :
    List EvidenceItem → List EvidenceItem × List EvidenceItem
  | [] => ([], [])
  | ev :: rest =>
      let (sup, con) := classifyEvidence claimText rest
      if ev.text = "" then (sup, con)
      else if detect_contradiction_patterns claimText ev.text then (sup, ev :: con)
      else if detect_support_patterns claimText ev.text then (ev :: sup, con)
      else (sup, con)

/-- Embedding of `evaluate_claim`. The two `UNKNOWN` arms for one and zero
supporting items in the source collapse into the final else. -/
def evaluate_claim (claim : Claim) (evidence : List EvidenceItem) : Verdict :=
  if claim.claim_text = "" || evidence.isEmpty then
    { claim_id := claim.claim_id, status := "UNKNOWN",
      supporting_evidence := [], contradicting_evidence := [] }
  else
    let (sup, con) := classifyEvidence claim.claim_text evidence
    let status :=
      if !con.isEmpty then "FAIL"
      else if 2 ≤ sup.length then "PASS"
      else "UNKNOWN"
    { claim_id := claim.claim_id, status := status,
      supporting_evidence := sup, contradicting_evidence := con }

/-! ### Decision aggregation (src/backstory_decision.py) -/

/-- Input record of `decide_backstory_consistency`: a dict read through
`c["status"]` and `c.get("core_trait", False)`; the optional field models a
dict that may lack the `core_trait` key. -/
structure DecisionInput where
  status : String
  core_trait : Option Bool
deriving DecidableEq, Repr

/-- Final decision dict. -/
structure Decision where
  label : Nat
  rationale : String
deriving DecidableEq, Repr

/-- Embedding of `decide_backstory_consistency`. -/
def decide_backstory_consistency (evaluated : List DecisionInput) : Decision :=
  let failedCore := evaluated.filter fun c =>
    c.status == "FAIL" && c.core_trait.getD false
  let failedNonCore := evaluated.filter fun c =>
    c.status == "FAIL" && !(c.core_trait.getD false)
  if !failedCore.isEmpty then
    { label := 0, rationale := "Core backstory claim contradicted by narrative evidence" }
  else if 2 ≤ failedNonCore.length then
    { label := 0, rationale := "Multiple backstory claims contradicted" }
  else
    { label := 1, rationale := "No decisive contradictions found" }

/-! ### Backstory decomposition (src/backstory_decomposer.py) -/

/-- High-certainty linguistic markers (`high_confidence_patterns`). -/
def highConfidencePatterns : List Pat :=
  [ pword "always", pword "never", pword "certainly", pword "definitely",
    pword "absolutely", pword2 "without" "doubt", pword "undoubtedly",
    pword "inevitably", pword "invariably", pword "constantly",
    pword2 "will" "always", pword2 "will" "never", pword "completely",
    pword "entirely", pword "totally", pword "permanently" ]

/-- Hedging markers (`low_confidence_patterns`). -/
def lowConfidencePatterns : List Pat :=
  [ pword "maybe", pword "perhaps", pword "possibly", pword "probably",
    pword "might", pword "could", pwordOptS "seem", pwordOptS "appear",
    pword "somewhat", pword "occasionally", pword "sometimes",
    pwordOptS2 "tend" "to", pword "likely", pwordOptS "suggest",
    pwordOptS "implie", pword "potentially", pword "presumably" ]

/-- Identity-defining markers (`core_trait_patterns`). -/
def coreTraitPatterns : List Pat :=
  [ pword "defining", pword "core", pword "fundamental", pword "essential",
    pword2 "central" "to", pword2 "shaped" "by", pword2 "driven" "by",
    pword2 "forever" "changed", pword3 "who" "they" "are", pword "identity" ]

/-- Strong indicator patterns of `_is_core_trait`; note `\btrauma` has no
trailing boundary in the source. -/
def strongIndicatorPatterns : List Pat :=
  [ pcat [.bnd, plit "trauma"],
    pword2 "defining" "moment", pword "life-changing",
    pword "profound", pword "deep-seated", pword "ingrained" ]

/-- Embedding of `_calculate_confidence`: base 0.7, +0.1 per matching
high-certainty pattern, −0.15 per matching hedge pattern, clamped to [0,1]. -/
def calculate_confidence (t : List Char) : ℚ :=
  let tl := lowerList t
  let highCount := (highConfidencePatterns.filter fun p => patSearch p tl).length
  let lowCount := (lowConfidencePatterns.filter fun p => patSearch p tl).length
  max 0 (min 1 ((0.7 : ℚ) + highCount * 0.1 - lowCount * 0.15))

/-- Embedding of `_is_core_trait`. -/
def is_core_trait (t : List Char) : Bool :=
  let tl := lowerList t
  (coreTraitPatterns.any fun p => patSearch p tl)
    || (strongIndicatorPatterns.any fun p => patSearch p tl)

/-- Category keyword patterns of `_categorize_claim`, in dict declaration
order (Python dicts preserve insertion order). -/
def categoryPatterns : List (String × List Pat) :=
  [ ("early_life_event",
     [ pword "born", pword "childhood", pword "young", pword2 "growing" "up",
       pword3 "as" "a" "child", pword2 "early" "years", pword "family",
       pwordOptS "parent", pword "orphan", pword "upbringing" ]),
    ("formative_experience",
     [ pword "experienced", pword "witnessed", pword "survived", pword "endured",
       pword "shaped", pword "changed", pword "learned", pword "discovered",
       pword "realized", pword "trauma", pword "event", pword "moment" ]),
    ("belief_about_world",
     [ pwordOptS "believe", pwordOptS "think", pwordOptS "view",
       pcat [.bnd, plit "see", .optCls ['s'], .ws1, plit "the", .ws1, plit "world", .bnd],
       pword "convinced", pword "philosophy", pword "worldview",
       pword "perspective", pword "truth", pword "principle" ]),
    ("fear_or_psychological_constraint",
     [ pwordOptS "fear", pword "afraid", pword "terrified", pword "anxious",
       pword "phobia", pwordOptS "dread", pword "haunted", pword "traumatized",
       pword "cannot", pword2 "unable" "to", pwordOptS2 "struggle" "to" ]),
    ("motivation_or_ambition",
     [ pwordOptS "want", pwordOptS "desire", pwordOptS "seek", pwordOptS "strive",
       pword "goal", pword "ambition", pword "dream", pwordOptS "hope",
       pwordOptS "aspire", pword "motivated", pword2 "driven" "to" ]),
    ("behavioral_tendency",
     [ pwordOptS2 "tend" "to", pword "often", pword "usually", pword "habit",
       pword "routinely", pword "typically", pword "characteristically",
       pword2 "prone" "to", pword2 "inclined" "to", pword "behavior" ]),
    ("skill_or_capability",
     [ pword "skilled", pword "talented", pword "expert", pword "proficient",
       pword "ability", pword "capable", pword "can", pword2 "able" "to",
       pword "mastered", pword "trained", pwordOptS2 "know" "how" ]),
    ("moral_or_narrative_constraint",
     [ pword "must", pword "should", pword "ought", pword "obligation",
       pword "duty", pword "responsibility", pword "code", pwordOptS "ethic",
       pwordOptS "moral", pwordOptS "value", pwordOptS "principle", pword "vow" ]) ]

/-- Maximum-score selection loop of Python `max(items, key=...)`: the first
item with the maximal score wins ties. -/
def pickMaxByScore : String → Nat → List (String × Nat) → String
  | cur, _, [] => cur
  | cur, curScore, (c, s) :: rest =>
      if curScore < s then pickMaxByScore c s rest
      else pickMaxByScore cur curScore rest

/-- Embedding of `_categorize_claim`: score every category by the number of
matching patterns, keep positive scores, take the first maximal one, and fall
back to narrow keyword containment checks. -/
def categorize_claim (t : List Char) : String :=
  let tl := lowerList t
  let categoryScores := categoryPatterns.filterMap fun cp =>
    let score := (cp.2.filter fun p => patSearch p tl).length
    if 0 < score then some (cp.1, score) else none
  match categoryScores with
  | (c, s) :: rest => pickMaxByScore c s rest
  | [] =>
      if ["born", "child", "young"].any (fun w => containsSub w.toList tl) then
        "early_life_event"
      else if ["fear", "afraid", "cannot"].any (fun w => containsSub w.toList tl) then
        "fear_or_psychological_constraint"
      else if ["want", "goal", "seek"].any (fun w => containsSub w.toList tl) then
        "motivation_or_ambition"
      else "formative_experience"

/-- Decimal digit accumulation with structural fuel (the fuel never runs out
for the initial value `n + 1` because the quotient strictly decreases). -/
def natDigitsAux : Nat → Nat → List Char
  | 0, _ => []
  | fuel + 1, n =>
      if n < 10 then [Nat.digitChar n]
      else natDigitsAux fuel (n / 10) ++ [Nat.digitChar (n % 10)]

/-- Decimal digit list of a natural number, as produced by Python `str`. -/
def natDigits (n : Nat) : List Char :=
  natDigitsAux (n + 1) n

/-- Python `str(n)` for a natural number. -/
def natDecimal (n : Nat) : String :=
  String.mk (natDigits n)

/-- Embedding of `_generate_claim_id`, with the sha256 hex digest abstracted
as `hashHex`: hash of the claim text joined to its sequential index, keeping
the first 12 hex characters. -/
def generate_claim_id (hashHex : String → String) (claimText : List Char)
    (index : Nat) : String :=
  let content := String.mk claimText ++ "_" ++ natDecimal index
  "claim_" ++ String.mk ((hashHex content).toList.take 12)

/-- Whether the previous character ends a sentence (`(?<=[.!?])`). -/
def isSentEnd : Option Char → Bool
  | some c => c = '.' || c = '!' || c = '?'
  | none => false

/-- Scanner for the sentence-splitting regex of `decompose` (a lookbehind for
terminal punctuation followed by `\s+`): a separator is a maximal
whitespace run whose preceding character is terminal punctuation. The
structural fuel never runs out when initialised with the text length, since
every step consumes at least one character. -/
def splitSentencesGo : Nat → List Char → Option Char → List Char → List (List Char)
  | _, acc, _, [] => [acc.reverse]
  | 0, acc, _, t => [acc.reverse ++ t]
  | fuel + 1, acc, prev, c :: rest =>
      if isSpaceChar c && isSentEnd prev then
        acc.reverse :: splitSentencesGo fuel [] (some ' ') (rest.dropWhile isSpaceChar)
      else splitSentencesGo fuel (c :: acc) (some c) rest

/-- Sentence splitting on terminal punctuation followed by whitespace. -/
def splitSentences (t : List Char) : List (List Char) :=
  splitSentencesGo t.length [] none t

/-- Greatest positive match length of `p` at the head of `t` (the span a
greedy regex engine consumes for the separator patterns used here), 0 when
`p` cannot consume anything. -/
def maxMatchPos (p : Pat) (prev : Option Char) (t : List Char) : Nat :=
  ((matchLens p prev t).filter fun l => 0 < l).foldr max 0

/-- Scanner for `re.split(pattern, text)`: split at each leftmost match,
consuming the greedy span. The structural fuel never runs out when
initialised with the text length, since every step consumes at least one
character. -/
def splitOnPatGo (p : Pat) : Nat → List Char → Option Char → List Char → List (List Char)
  | _, acc, _, [] => [acc.reverse]
  | 0, acc, _, t => [acc.reverse ++ t]
  | fuel + 1, acc, prev, c :: rest =>
      let m := maxMatchPos p prev (c :: rest)
      if 0 < m then
        acc.reverse :: splitOnPatGo p fuel []
          (match ((c :: rest).take m).getLast? with
           | some d => some d
           | none => prev)
          ((c :: rest).drop m)
      else splitOnPatGo p fuel (c :: acc) (some c) rest

/-- Python `re.split(p, t)`. -/
def splitOnPat (p : Pat) (t : List Char) : List (List Char) :=
  splitOnPatGo p t.length [] none t

/-- Separator patterns of `_split_compound_claims`, in source order. -/
def compoundSeparators : List Pat :=
  [ pcat [plit ",", .ws1, plit "and", .ws1],
    pcat [plit ",", .ws1, plit "but", .ws1],
    pcat [plit ";", .ws1],
    pcat [plit ".", .ws1] ]

/-- Candidate segments of `_split_compound_claims`: the sentence text split
successively by every separator pattern. -/
def candidate_segments (t : List Char) : List (List Char) :=
  compoundSeparators.foldl (fun segs p => segs.flatMap fun s => splitOnPat p s) [t]

/-- Embedding of `_split_compound_claims`: strip each candidate segment, keep
it when it is longer than 10 characters and does not end in a comma, and fall
back to the whole input when nothing survives. -/
def split_compound_claims (t : List Char) : List (List Char) :=
  let claims := (candidate_segments t).filterMap fun seg =>
    let s := stripChars seg
    if 10 < s.length && !(s.getLast? == some ',') then some s else none
  if claims.isEmpty then [t] else claims

/-- Per-sentence loop of `decompose`, threading the sequential claim index. -/
def decomposeSentences (hashHex : String → String) :
    List (List Char) → Nat → List Claim
  | [], _ => []
  | sent :: rest, claimIndex =>
      let s := stripChars sent
      if s.isEmpty then decomposeSentences hashHex rest claimIndex
      else
        let atoms := (split_compound_claims s).filterMap fun a =>
          let a2 := stripChars a
          if a2.isEmpty then none else some a2
        let built := atoms.enum.map fun ia =>
          { claim_id := generate_claim_id hashHex ia.2 (claimIndex + ia.1),
            claim_type := categorize_claim ia.2,
            claim_text := String.mk ia.2,
            confidence := calculate_confidence ia.2,
            core_trait := is_core_trait ia.2 : Claim }
        built ++ decomposeSentences hashHex rest (claimIndex + atoms.length)

/-- Embedding of `BackstoryDecomposer.decompose`, with the sha256 hex digest
abstracted as `hashHex`. -/
def decompose (hashHex : String → String) (backstory : String) : List Claim :=
  let bs := backstory.toList
  if bs.isEmpty || (stripChars bs).isEmpty then []
  else decomposeSentences hashHex (splitSentences (stripChars bs)) 0

/-! ### Importance weighting (src/claim_importance.py) -/

/-- The eight fixed claim categories (`CLAIM_CATEGORIES`). -/
def claimCategories : List String :=
  [ "early_life_event", "formative_experience", "belief_about_world",
    "fear_or_psychological_constraint", "motivation_or_ambition",
    "behavioral_tendency", "skill_or_capability", "moral_or_narrative_constraint" ]

/-- Base weight lookup `CATEGORY_BASE_WEIGHTS.get(claim_type, 0.5)`. -/
def categoryBaseWeight (t : String) : ℚ :=
  if t = "fear_or_psychological_constraint" then 0.55
  else if t = "motivation_or_ambition" then 0.50
  else if t = "belief_about_world" then 0.45
  else if t = "early_life_event" then 0.40
  else if t = "formative_experience" then 0.35
  else if t = "behavioral_tendency" then 0.30
  else if t = "moral_or_narrative_constraint" then 0.25
  else if t = "skill_or_capability" then 0.20
  else 0.5

/-- Embedding of `calculate_importance_weight`: category base weight, plus
the 0.4 core-trait boost, plus `(confidence − 0.7) * 0.1`, clamped to [0,1]. -/
def calculate_importance_weight (c : Claim) : ℚ :=
  let baseWeight := categoryBaseWeight c.claim_type
  let boosted := if c.core_trait then baseWeight + 0.4 else baseWeight
  max 0 (min 1 (boosted + (c.confidence - 0.7) * 0.1))

/-! ### Claim validation (src/claim_validator.py) -/

/-- The allowed claim types (`ALLOWED_CLAIM_TYPES`). -/
def allowedClaimTypes : List String :=
  [ "early_life_event", "formative_experience", "belief_about_world",
    "fear_or_psychological_constraint", "motivation_or_ambition",
    "behavioral_tendency", "skill_or_capability", "moral_or_narrative_constraint" ]

/-- Alternation of the verb forms used by `strong_compound_patterns`. -/
def verbAlt1 : Pat :=
  .alt [ "is".toList, "was".toList, "are".toList, "were".toList,
         "has".toList, "have".toList, "had".toList, "does".toList,
         "did".toList, "will".toList, "would".toList, "can".toList,
         "could".toList ]

/-- Alternation of the shorter verb list in the second strong pattern. -/
def verbAlt2 : Pat :=
  .alt [ "is".toList, "was".toList, "are".toList, "were".toList,
         "has".toList, "have".toList, "had".toList ]

/-- The `strong_compound_patterns` of the validator, in source order. -/
def strongCompoundPatterns : List Pat :=
  [ pcat [.wPlus, .ws1, plit "and", .ws1, .wPlus, .ws1, verbAlt1],
    pcat [verbAlt2, .ws1, .wPlus, .dotStar, plit ",", .ws1, plit "and", .ws1, verbAlt2] ]

/-- The `compound_indicators` of the validator, in source order. -/
def compoundIndicatorPatterns : List Pat :=
  [ pcat [.bnd, plit "and", .ws1, .alt ["also".toList, "then".toList, "later".toList], .bnd],
    pcat [.bnd, plit "but", .ws1, .alt ["also".toList, "then".toList, "later".toList], .bnd],
    pcat [.bnd, plit "while", .ws1, .alt ["also".toList, "simultaneously".toList], .bnd],
    pcat [plit ",", .ws1, plit "and", .ws1],
    pcat [plit ",", .ws1, plit "but", .ws1],
    pcat [plit ";", .wsStar, .wPlus],
    pcat [plit ".", .ws1, .wPlus] ]

/-- The internal sentence boundary pattern `[.!?]\s+[A-Z]`, searched on the
original (not lowercased) text via `re.findall`. -/
def sentenceEndingPat : Pat :=
  pcat [.cls ['.', '!', '?'], .ws1, .upperAZ]

/-- Embedding of `_check_atomicity`: fails on a strong compound pattern, on
two or more compound indicators, or on an internal sentence boundary. -/
def check_atomicity_ok (text : List Char) : Bool :=
  let tl := lowerList text
  !(strongCompoundPatterns.any fun p => patSearch p tl)
    && decide ((compoundIndicatorPatterns.filter fun p => patSearch p tl).length < 2)
    && !(patSearch sentenceEndingPat text)

/-- Embedding of `ClaimValidator.validate_claim` on one claim: the name of
the first failing field, or `none` when the claim passes. The missing-field
and wrong-runtime-type failure branches of the source are unrepresentable in
this typed embedding (every `Claim` value carries all five fields with the
right types); the string-emptiness, membership, range and atomicity checks
are embedded in source order. -/
def validateClaimField (c : Claim) : Option String :=
  if (stripChars c.claim_id.toList).isEmpty then some "claim_id"
  else if !(allowedClaimTypes.contains c.claim_type) then some "claim_type"
  else if (stripChars c.claim_text.toList).isEmpty then some "claim_text"
  else if !(check_atomicity_ok c.claim_text.toList) then some "claim_text"
  else if !(decide (0 ≤ c.confidence) && decide (c.confidence ≤ 1)) then some "confidence"
  else none

/-- Typed validation error (`ClaimValidationError`), carrying the offending
claim index and field as in the source messages. -/
inductive ClaimValidationError where
  /-- the claims list is empty -/
  | emptyList : ClaimValidationError
  /-- an individual claim failed validation at an index, on a field -/
  | invalidClaim : Nat → String → ClaimValidationError
  /-- a claim_id repeats; the index and id of the second occurrence -/
  | duplicateId : Nat → String → ClaimValidationError
deriving DecidableEq, Repr

/-- Per-claim loop of `validate_claims`: first failing claim with its index. -/
def findClaimErrorFrom : Nat → List Claim → Option (Nat × String)
  | _, [] => none
  | i, c :: rest =>
      match validateClaimField c with
      | some f => some (i, f)
      | none => findClaimErrorFrom (i + 1) rest

/-- Duplicate-id scan of `validate_claims`, carrying the set of already seen
ids. -/
def findDupIdFrom : List String → Nat → List String → Option (Nat × String)
  | _, _, [] => none
  | seen, i, x :: rest =>
      if seen.contains x then some (i, x)
      else findDupIdFrom (x :: seen) (i + 1) rest

/-- Embedding of `ClaimValidator.validate_claims`: empty-list check, then
per-claim validation in order, then the duplicate-id scan. (The original
`isinstance(claims, list)` check is unrepresentable in the typed embedding.) -/
def validate_claims (claims : List Claim) : Except ClaimValidationError Unit :=
  if claims.isEmpty then .error .emptyList
  else
    match findClaimErrorFrom 0 claims with
    | some (i, f) => .error (.invalidClaim i f)
    | none =>
        match findDupIdFrom [] 0 (claims.map fun c => c.claim_id) with
        | some (i, x) => .error (.duplicateId i x)
        | none => .ok ()

/-! ### Evidence retrieval (src/evidence_retrieval.py) -/

/-- Embedding of `_tokenize`: lowercase, replace punctuation by spaces, split
on whitespace (duplicates kept, no length filter). -/
def tokenizeRetrieval (s : String) : List (List Char) :=
  splitWS (subNonWordToSpace (lowerList s.toList))

/-- A narrative passage row as consumed by the retriever; the ingestion
schema also carries char_start/char_end offsets, which the retriever never
reads and which are omitted here. -/
structure Chunk where
  chunk_id : String
  text : String
  position : Nat
deriving DecidableEq, Repr

/-- Embedding of `_compute_tf`: term frequency dictionary as an association
list keyed by the distinct tokens. -/
def compute_tf (tokens : List (List Char)) : List (List Char × ℚ) :=
  if tokens.isEmpty then []
  else tokens.dedup.map fun tok =>
    (tok, (tokens.count tok : ℚ) / (tokens.length : ℚ))

/-- Number of documents containing a token. -/
def numDocsContaining (docs : List (List (List Char))) (tok : List Char) : Nat :=
  (docs.filter fun d => d.contains tok).length

/-- Embedding of `_compute_idf` read through `idf.get(token, 0.0)`: the
total function that is `log(num_docs / freq)` on tokens occurring in some
document and 0 elsewhere (the source dict has no entry for those, and the
lookup defaults to 0). The float `math.log` is abstracted as `log`. -/
def compute_idf (log : ℚ → ℚ) (docs : List (List (List Char)))
    (tok : List Char) : ℚ :=
  let freq := numDocsContaining docs tok
  if freq = 0 then 0 else log ((docs.length : ℚ) / (freq : ℚ))

/-- Embedding of `_compute_tfidf_vector`. -/
def compute_tfidf_vector (tokens : List (List Char)) (idf : List Char → ℚ) :
    List (List Char × ℚ) :=
  (compute_tf tokens).map fun p => (p.1, p.2 * idf p.1)

/-- Embedding of `_cosine_similarity`; the float `math.sqrt` is abstracted as
`sqrt`. The dot product runs over the common keys of the two vectors. -/
def cosine_similarity (sqrt : ℚ → ℚ) (v1 v2 : List (List Char × ℚ)) : ℚ :=
  if v1.isEmpty || v2.isEmpty then 0
  else
    let dot := v1.foldl (fun acc p =>
      match v2.lookup p.1 with
      | some y => acc + p.2 * y
      | none => acc) 0
    let mag1 := sqrt (v1.foldl (fun acc p => acc + p.2 * p.2) 0)
    let mag2 := sqrt (v2.foldl (fun acc p => acc + p.2 * p.2) 0)
    if mag1 = 0 || mag2 = 0 then 0 else dot / (mag1 * mag2)

/-- Stable insertion for descending sort: the new element goes in front of
the first element whose key is less than or equal to its own. -/
def insertDescBy {α : Type} (f : α → ℚ) (x : α) : List α → List α
  | [] => [x]
  | y :: ys => if f y ≤ f x then x :: y :: ys else y :: insertDescBy f x ys

/-- Model of Python `list.sort(key=..., reverse=True)`: a stable descending
sort (elements are inserted back into the sorted tail from right to left, so
equal keys keep their original relative order). -/
def sortDescBy {α : Type} (f : α → ℚ) : List α → List α
  | [] => []
  | x :: xs => insertDescBy f x (sortDescBy f xs)

/-- Embedding of `retrieve_evidence_for_claim` over an exported chunk list
(`export_chunks_to_list` returns the ingested rows in order). -/
def retrieve_evidence_for_claim (log sqrt : ℚ → ℚ) (chunks : List Chunk)
    (claimText : String) (topK : Nat) : List EvidenceItem :=
  if chunks.isEmpty then []
  else
    let claimTokens := tokenizeRetrieval claimText
    let chunkTokensList := chunks.map fun ch => tokenizeRetrieval ch.text
    let allDocuments := chunkTokensList ++ [claimTokens]
    let idf := compute_idf log allDocuments
    let claimTfidf := compute_tfidf_vector claimTokens idf
    let evidenceList := chunks.map fun ch =>
      { chunk_id := ch.chunk_id, text := ch.text, position := ch.position,
        relevance_score :=
          cosine_similarity sqrt claimTfidf
            (compute_tfidf_vector (tokenizeRetrieval ch.text) idf) : EvidenceItem }
    (sortDescBy (fun e => e.relevance_score) evidenceList).take topK

/-! ### Batch row processing (src/run_batch.py) -/

/-- Python `text.replace(",", " and ")`. -/
def replaceCommaWithAnd (t : List Char) : List Char :=
  t.flatMap fun c => if c = ',' then " and ".toList else [c]

/-- Scanner for Python `text.split(" and ")` (literal separator, leftmost,
non-overlapping); the structural fuel never runs out when initialised with
the text length. -/
def splitOnAndGo : Nat → List Char → List Char → List (List Char)
  | _, acc, [] => [acc.reverse]
  | 0, acc, t => [acc.reverse ++ t]
  | fuel + 1, acc, c :: rest =>
      if " and ".toList.isPrefixOf (c :: rest) then
        acc.reverse :: splitOnAndGo fuel [] ((c :: rest).drop 5)
      else splitOnAndGo fuel (c :: acc) rest

/-- Python `text.split(" and ")`. -/
def splitOnAnd (t : List Char) : List (List Char) :=
  splitOnAndGo t.length [] t

/-- The repaired parts of a claim text:
`[p.strip() for p in text.replace(",", " and ").split(" and ") if p.strip()]`. -/
def repairParts (text : List Char) : List (List Char) :=
  ((splitOnAnd (replaceCommaWithAnd text)).map stripChars).filter fun p => !p.isEmpty

/-- The repair trigger `" and " in text or "," in text`. -/
def hasConjOrComma (text : List Char) : Bool :=
  containsSub " and ".toList text || containsSub [','] text

/-- Decimal value of a digit string (specification-side inverse of
`natDigits`, used to prove the decimal printer injective). -/
def digitsVal (l : List Char) : Nat :=
  l.foldl (fun a c => 10 * a + (c.toNat - 48)) 0

/-- Repair of one claim in the except-branch of `process_row`: a claim whose
text contains a conjunction or comma is re-split into parts, each part
getting a derived id: the old claim_id, then _split_, then the part index,
then the first 6 hex characters of a fresh uuid4, joined by underscores;
other claims pass through unchanged. The fresh random `uuid4().hex` values
are abstracted as the stream `uuid`, consumed from index `k0`. -/
def repairClaim (uuid : Nat → String) (k0 : Nat) (c : Claim) : List Claim :=
  if hasConjOrComma c.claim_text.toList then
    (repairParts c.claim_text.toList).enum.map fun ip =>
      { c with claim_text := String.mk ip.2,
               claim_id := c.claim_id ++ "_split_" ++ natDecimal ip.1 ++ "_"
                 ++ String.mk ((uuid (k0 + ip.1)).toList.take 6) }
  else [c]

/-- Repair loop over the whole claim list, threading the uuid stream index. -/
def repairClaimsGo (uuid : Nat → String) : Nat → List Claim → List Claim
  | _, [] => []
  | k, c :: rest =>
      repairClaim uuid k c ++ repairClaimsGo uuid (k + (repairClaim uuid k c).length) rest

/-- The repaired claim list of the except-branch of `process_row`. -/
def repair_claims (uuid : Nat → String) (claims : List Claim) : List Claim :=
  repairClaimsGo uuid 0 claims

/-- The try/except validation step of `process_row`: validate, on failure
repair once and re-validate, and let a second failure propagate. -/
def validate_and_repair (uuid : Nat → String) (claims : List Claim) :
    Except ClaimValidationError (List Claim) :=
  match validate_claims claims with
  | .ok _ => .ok claims
  | .error _ =>
      match validate_claims (repair_claims uuid claims) with
      | .ok _ => .ok (repair_claims uuid claims)
      | .error e => .error e

/-- The adapter between `evaluate_claim` output and
`decide_backstory_consistency` input in `process_row`: the verdict dict has
exactly the keys claim_id, status, supporting_evidence and
contradicting_evidence, so `c.get("core_trait", False)` always falls back to
the default; the absent key is the `none` field. -/
def verdictToDecisionInput (v : Verdict) : DecisionInput :=
  { status := v.status, core_trait := none }

/-- The claim-processing pipeline of `process_row` after the novel file has
been ingested into `chunks`: decompose, validate with one repair retry,
retrieve evidence per claim (top_k = 6), evaluate, and aggregate.
(`add_importance_weights` enriches each claim dict with an
importance_weight key that no later stage reads; the decision is unchanged
by it and the enrichment is modelled separately by
`calculate_importance_weight`.) -/
def process_backstory (hashHex : String → String) (uuid : Nat → String)
    (log sqrt : ℚ → ℚ) (chunks : List Chunk) (backstory : String) :
    Except ClaimValidationError Decision :=
  match validate_and_repair uuid (decompose hashHex backstory) with
  | .error e => .error e
  | .ok cs =>
      let evaluated := cs.map fun c =>
        evaluate_claim c (retrieve_evidence_for_claim log sqrt chunks c.claim_text 6)
      .ok (decide_backstory_consistency (evaluated.map verdictToDecisionInput))

/-! ### Theorems settling the claims -/

/-- C1: for every claim and every evidence list, `evaluate_claim` returns
status FAIL if the computed contradicting_evidence list is non-empty
(regardless of how many supporting items exist); otherwise PASS if there are
at least 2 supporting items; otherwise UNKNOWN; and when the evidence list is
empty or the claim text is empty it immediately returns UNKNOWN with empty
supporting and contradicting lists. -/
theorem evaluate_claim_status_spec (claim : Claim) (evidence : List EvidenceItem) :
    ((claim.claim_text = "" ∨ evidence = []) →
      evaluate_claim claim evidence =
        { claim_id := claim.claim_id, status := "UNKNOWN",
          supporting_evidence := [], contradicting_evidence := [] }) ∧
    (evaluate_claim claim evidence).status =
      (if (evaluate_claim claim evidence).contradicting_evidence ≠ [] then "FAIL"
       else if 2 ≤ (evaluate_claim claim evidence).supporting_evidence.length then "PASS"
       else "UNKNOWN") := by
  constructor
  · intro h
    have hb : (claim.claim_text = "" || evidence.isEmpty) = true := by
      rcases h with h | h <;> simp [h]
    simp [evaluate_claim, hb]
  · by_cases hb : (claim.claim_text = "" || evidence.isEmpty) = true
    · simp [evaluate_claim, hb]
    · simp only [evaluate_claim, hb, if_false, Bool.false_eq_true]
      obtain ⟨sup, con⟩ := classifyEvidence claim.claim_text evidence
      by_cases hc : con = []
      · simp [hc]
      · simp [hc, List.isEmpty_iff]

/-- C1 witness: the short-circuit branch at a concrete empty-text claim. -/
theorem evaluate_claim_status_spec_witness :
    evaluate_claim
      { claim_id := "id0", claim_type := "formative_experience",
        claim_text := "", confidence := 1, core_trait := false }
      [{ chunk_id := "ch", text := "some text", position := 0, relevance_score := 0 }] =
      { claim_id := "id0", status := "UNKNOWN",
        supporting_evidence := [], contradicting_evidence := [] } :=
  (evaluate_claim_status_spec _ _).1 (Or.inl rfl)

/-- C2: for every list of claim verdicts, `decide_backstory_consistency`
returns label 0 with the core rationale if some verdict has status FAIL and
core_trait true; else label 0 with the multiple-contradictions rationale if
at least 2 verdicts have status FAIL and core_trait false (a missing
core_trait key counts as false, as in `c.get("core_trait", False)`); else
label 1 with the no-contradictions rationale — the core-trait check first. -/
theorem decide_backstory_consistency_spec (evaluated : List DecisionInput) :
    decide_backstory_consistency evaluated =
      (if ∃ c ∈ evaluated, c.status = "FAIL" ∧ c.core_trait.getD false = true then
        { label := 0, rationale := "Core backstory claim contradicted by narrative evidence" }
      else if 2 ≤ evaluated.countP
          (fun c => c.status == "FAIL" && !(c.core_trait.getD false)) then
        { label := 0, rationale := "Multiple backstory claims contradicted" }
      else
        { label := 1, rationale := "No decisive contradictions found" }) := by
  have hfilter :
      (evaluated.filter fun c => c.status == "FAIL" && c.core_trait.getD false) = [] ↔
        ¬ ∃ c ∈ evaluated, c.status = "FAIL" ∧ c.core_trait.getD false = true := by
    constructor
    · intro h ⟨c, hc, hs, ht⟩
      have := List.filter_eq_nil_iff.mp h c hc
      simp [hs, ht] at this
    · intro h
      refine List.filter_eq_nil_iff.mpr fun c hc hp => h ⟨c, hc, ?_⟩
      simpa using hp
  simp only [decide_backstory_consistency, List.countP_eq_length_filter]
  by_cases hex : ∃ c ∈ evaluated, c.status = "FAIL" ∧ c.core_trait.getD false = true
  · have : ¬ (evaluated.filter fun c => c.status == "FAIL" && c.core_trait.getD false) = [] :=
      fun h => (hfilter.mp h) hex
    simp [hex, List.isEmpty_iff, this]
  · have : (evaluated.filter fun c => c.status == "FAIL" && c.core_trait.getD false) = [] :=
      hfilter.mpr hex
    simp [hex, List.isEmpty_iff, this]

/-- C4: `decompose` is total by construction (it is a total Lean function
translated operation for operation from the source, so it returns a claim
list for every string and raises nothing), and empty or whitespace-only
input yields the empty claim list. -/
theorem decompose_total_blank_empty (hashHex : String → String) (s : String)
    (h : s.toList.all isSpaceChar = true) :
    decompose hashHex s = [] := by
  have hd : List.dropWhile isSpaceChar s.data = [] :=
    List.dropWhile_eq_nil_iff.mpr fun x hx => List.all_eq_true.mp h x hx
  simp [decompose, stripChars, String.toList, hd]

/-- C4 witness: whitespace-only input at a concrete string. -/
theorem decompose_total_blank_empty_witness :
    decompose (fun _ => "0123456789abcdef") " \t\n " = [] :=
  decompose_total_blank_empty _ _ (by decide)

/-- C5 counterexample: in the sentence text below, the stripped candidate
segment of exactly 10 characters does not end in a comma, yet it is dropped
(the source keeps a segment only when `len(segment) > 10`), and the result is
not the single-segment fallback, refuting the claim that a 10-character
segment is kept. -/
theorem split_compound_claims_exact10_counterexample :
    "abcdefghij".toList ∈
      (candidate_segments "abcdefghij; now this is long".toList).map stripChars ∧
    ("abcdefghij".toList).length = 10 ∧
    "abcdefghij".toList.getLast? ≠ some ',' ∧
    "abcdefghij".toList ∉ split_compound_claims "abcdefghij; now this is long".toList ∧
    split_compound_claims "abcdefghij; now this is long".toList ≠
      ["abcdefghij; now this is long".toList] := by
  decide

/-- C5 amended: a stripped candidate segment is kept if and only if it is
strictly longer than 10 characters (so a segment of exactly 10 characters is
dropped) and does not end in a comma; if no segment survives the filter, the
original sentence text is returned as the single segment. -/
theorem split_compound_claims_spec (t : List Char) :
    split_compound_claims t =
      (let kept := (candidate_segments t).filterMap fun seg =>
         if 10 < (stripChars seg).length ∧ (stripChars seg).getLast? ≠ some ',' then
           some (stripChars seg)
         else none
       if kept = [] then [t] else kept) := by
  have hfun : (fun seg : List Char =>
      if 10 < (stripChars seg).length && !((stripChars seg).getLast? == some ',') then
        some (stripChars seg)
      else none) =
      (fun seg : List Char =>
        if 10 < (stripChars seg).length ∧ (stripChars seg).getLast? ≠ some ',' then
          some (stripChars seg)
        else none) := by
    funext seg
    by_cases h1 : 10 < (stripChars seg).length
    · by_cases h2 : (stripChars seg).getLast? = some ','
      · simp [h1, h2]
      · simp [h1, h2]
    · simp [h1]
  simp only [split_compound_claims, hfun, List.isEmpty_iff]

/-- C6: for every claim whose claim_type lies in the fixed category set and
whose confidence lies in [0,1], the importance weight lies in [0,1], and the
weight with core_trait true is at least the weight of the identical claim
with core_trait false. -/
theorem calculate_importance_weight_bounds_mono (c : Claim)
    (htype : c.claim_type ∈ claimCategories)
    (hconf : 0 ≤ c.confidence ∧ c.confidence ≤ 1) :
    (0 ≤ calculate_importance_weight c ∧ calculate_importance_weight c ≤ 1) ∧
    calculate_importance_weight { c with core_trait := false } ≤
      calculate_importance_weight { c with core_trait := true } := by
  refine ⟨⟨le_max_left 0 _, max_le (by norm_num) (min_le_left 1 _)⟩, ?_⟩
  show max 0 (min 1 (categoryBaseWeight c.claim_type + (c.confidence - 0.7) * 0.1)) ≤
    max 0 (min 1 (categoryBaseWeight c.claim_type + 0.4 + (c.confidence - 0.7) * 0.1))
  apply max_le_max (le_refl 0)
  apply min_le_min (le_refl 1)
  linarith

/-- C6 witness: bounds and core-trait monotonicity at a concrete claim. -/
theorem calculate_importance_weight_bounds_mono_witness :
    (0 ≤ calculate_importance_weight
        { claim_id := "i", claim_type := "early_life_event", claim_text := "x",
          confidence := 0.8, core_trait := true } ∧
      calculate_importance_weight
        { claim_id := "i", claim_type := "early_life_event", claim_text := "x",
          confidence := 0.8, core_trait := true } ≤ 1) ∧
    calculate_importance_weight
        { claim_id := "i", claim_type := "early_life_event", claim_text := "x",
          confidence := 0.8, core_trait := false } ≤
      calculate_importance_weight
        { claim_id := "i", claim_type := "early_life_event", claim_text := "x",
          confidence := 0.8, core_trait := true } :=
  calculate_importance_weight_bounds_mono
    { claim_id := "i", claim_type := "early_life_event", claim_text := "x",
      confidence := 0.8, core_trait := true }
    (by decide) (by constructor <;> norm_num)

/-- The per-claim scan returns no error exactly when every claim passes
individual validation. -/
theorem findClaimErrorFrom_eq_none (i : Nat) (l : List Claim) :
    findClaimErrorFrom i l = none ↔ ∀ c ∈ l, validateClaimField c = none := by
  induction l generalizing i with
  | nil => simp [findClaimErrorFrom]
  | cons c rest ih =>
      cases hc : validateClaimField c with
      | some f => simp [findClaimErrorFrom, hc]
      | none => simp [findClaimErrorFrom, hc, ih]

/-- The duplicate scan returns no error exactly when the remaining ids are
duplicate-free and disjoint from the already seen ids. -/
theorem findDupIdFrom_eq_none (seen : List String) (i : Nat) (l : List String) :
    findDupIdFrom seen i l = none ↔ l.Nodup ∧ ∀ x ∈ l, x ∉ seen := by
  induction l generalizing seen i with
  | nil => simp [findDupIdFrom]
  | cons x rest ih =>
      by_cases hx : x ∈ seen
      · have heq : findDupIdFrom seen i (x :: rest) = some (i, x) := by
          simp [findDupIdFrom, hx]
        rw [heq]
        constructor
        · intro h; exact absurd h (by simp)
        · rintro ⟨-, hall⟩
          exact absurd hx (hall x (by simp))
      · have heq : findDupIdFrom seen i (x :: rest) = findDupIdFrom (x :: seen) (i + 1) rest := by
          simp [findDupIdFrom, hx]
        rw [heq, ih, List.nodup_cons]
        constructor
        · rintro ⟨hnd, hall⟩
          refine ⟨⟨fun hmem => (hall x hmem) (by simp), hnd⟩, fun y hy => ?_⟩
          rcases List.mem_cons.mp hy with rfl | hy2
          · exact hx
          · exact fun hseen => (hall y hy2) (List.mem_cons_of_mem _ hseen)
        · rintro ⟨⟨hxr, hnd⟩, hall⟩
          refine ⟨hnd, fun y hy hmem => ?_⟩
          rcases List.mem_cons.mp hmem with rfl | hseen
          · exact hxr hy
          · exact (hall y (List.mem_cons_of_mem _ hy)) hseen

/-- C7: `validate_claims` fails exactly when the input is empty, or some
claim fails individual field/range/atomicity validation, or some claim_id
occurs more than once; and, the embedding being a pure function of its input
(there is no mutation to perform), re-validating a set that just passed
never fails. -/
theorem validate_claims_error_iff (claims : List Claim) :
    ((∃ e, validate_claims claims = .error e) ↔
      (claims = [] ∨ (∃ c ∈ claims, validateClaimField c ≠ none) ∨
        ¬ (claims.map fun c => c.claim_id).Nodup)) ∧
    (validate_claims claims = .ok () → validate_claims claims = .ok ()) := by
  refine ⟨?_, fun h => h⟩
  by_cases hemp : claims = []
  · subst hemp
    constructor
    · intro _; exact Or.inl rfl
    · intro _; exact ⟨.emptyList, rfl⟩
  · have hne : claims.isEmpty = false := by
      simpa [List.isEmpty_iff] using hemp
    simp only [validate_claims, hne, Bool.false_eq_true, if_false]
    cases hfe : findClaimErrorFrom 0 claims with
    | some p =>
        have hex : ∃ c ∈ claims, validateClaimField c ≠ none := by
          by_contra hno
          push_neg at hno
          have hnone : findClaimErrorFrom 0 claims = none :=
            (findClaimErrorFrom_eq_none 0 claims).mpr hno
          rw [hnone] at hfe
          cases hfe
        obtain ⟨i, f⟩ := p
        constructor
        · intro _; exact Or.inr (Or.inl hex)
        · intro _; exact ⟨.invalidClaim i f, rfl⟩
    | none =>
        have hall : ∀ c ∈ claims, validateClaimField c = none :=
          (findClaimErrorFrom_eq_none 0 claims).mp hfe
        cases hdf : findDupIdFrom [] 0 (claims.map fun c => c.claim_id) with
        | some p =>
            have hnd : ¬ (claims.map fun c => c.claim_id).Nodup := by
              intro hnd
              have hnone : findDupIdFrom [] 0 (claims.map fun c => c.claim_id) = none :=
                (findDupIdFrom_eq_none [] 0 _).mpr ⟨hnd, by simp⟩
              rw [hnone] at hdf
              cases hdf
            obtain ⟨i, x⟩ := p
            constructor
            · intro _; exact Or.inr (Or.inr hnd)
            · intro _; exact ⟨.duplicateId i x, rfl⟩
        | none =>
            have hnd : (claims.map fun c => c.claim_id).Nodup :=
              ((findDupIdFrom_eq_none [] 0 _).mp hdf).1
            constructor
            · rintro ⟨e, he⟩; cases he
            · rintro (h | ⟨c, hc, hcf⟩ | h)
              · exact absurd h hemp
              · exact absurd (hall c hc) hcf
              · exact absurd hnd h

/-- C7 witness: the iff applied at the concrete empty claim set. -/
theorem validate_claims_error_iff_witness :
    ∃ e, validate_claims [] = .error e :=
  (validate_claims_error_iff []).1.mpr (Or.inl rfl)

/-- Inserting adds one element. -/
theorem length_insertDescBy {α : Type} (f : α → ℚ) (x : α) (l : List α) :
    (insertDescBy f x l).length = l.length + 1 := by
  induction l with
  | nil => rfl
  | cons y ys ih =>
      by_cases hc : f y ≤ f x
      · simp [insertDescBy, hc]
      · simp [insertDescBy, hc, ih]

/-- Sorting preserves length. -/
theorem length_sortDescBy {α : Type} (f : α → ℚ) (l : List α) :
    (sortDescBy f l).length = l.length := by
  induction l with
  | nil => rfl
  | cons x xs ih => simp [sortDescBy, length_insertDescBy, ih]

/-- Membership through insertion. -/
theorem mem_insertDescBy {α : Type} (f : α → ℚ) (x z : α) (l : List α) :
    z ∈ insertDescBy f x l ↔ z = x ∨ z ∈ l := by
  induction l with
  | nil => simp [insertDescBy]
  | cons y ys ih =>
      by_cases hc : f y ≤ f x
      · simp [insertDescBy, hc]
      · simp only [insertDescBy, hc, if_false, List.mem_cons, ih]
        tauto

/-- Membership through sorting. -/
theorem mem_sortDescBy {α : Type} (f : α → ℚ) (z : α) (l : List α) :
    z ∈ sortDescBy f l ↔ z ∈ l := by
  induction l with
  | nil => simp [sortDescBy]
  | cons x xs ih => simp [sortDescBy, mem_insertDescBy, ih]

/-- Stable insertion preserves the ranking invariant: later elements have a
key at most as large, and on equal keys a strictly larger position. -/
theorem pairwise_insertDescBy {α : Type} (f : α → ℚ) (pos : α → Nat)
    (x : α) (l : List α)
    (hl : l.Pairwise fun a b => f b ≤ f a ∧ (f a = f b → pos a < pos b))
    (hx : ∀ y ∈ l, pos x < pos y) :
    (insertDescBy f x l).Pairwise
      fun a b => f b ≤ f a ∧ (f a = f b → pos a < pos b) := by
  induction l with
  | nil => simp [insertDescBy]
  | cons y ys ih =>
      rcases List.pairwise_cons.mp hl with ⟨hy, hys⟩
      by_cases hc : f y ≤ f x
      · simp only [insertDescBy, hc, if_true]
        refine List.pairwise_cons.mpr ⟨?_, hl⟩
        intro z hz
        refine ⟨?_, fun _ => hx z hz⟩
        rcases List.mem_cons.mp hz with rfl | hz2
        · exact hc
        · exact le_trans (hy z hz2).1 hc
      · simp only [insertDescBy, hc, if_false]
        refine List.pairwise_cons.mpr ⟨?_, ih hys fun z hz => hx z (List.mem_cons_of_mem _ hz)⟩
        intro z hz
        rcases (mem_insertDescBy f x z ys).mp hz with rfl | hz2
        · have hlt : f z < f y := lt_of_not_ge hc
          exact ⟨le_of_lt hlt, fun heq => absurd heq.symm (ne_of_lt hlt)⟩
        · exact hy z hz2

/-- The stable descending sort of a position-increasing list satisfies the
ranking invariant pairwise. -/
theorem pairwise_sortDescBy {α : Type} (f : α → ℚ) (pos : α → Nat)
    (l : List α) (hl : l.Pairwise fun a b => pos a < pos b) :
    (sortDescBy f l).Pairwise
      fun a b => f b ≤ f a ∧ (f a = f b → pos a < pos b) := by
  induction l with
  | nil => simp [sortDescBy]
  | cons x xs ih =>
      rcases List.pairwise_cons.mp hl with ⟨hx, hxs⟩
      exact pairwise_insertDescBy f pos x (sortDescBy f xs) (ih hxs)
        fun y hy => hx y ((mem_sortDescBy f y xs).mp hy)

/-- C8: `retrieve_evidence_for_claim` returns at most top_k items, sorted in
non-increasing relevance order with ties broken stably by original passage
order (expressed through the strictly increasing chunk positions); an empty
passage collection yields an empty result, and an empty claim text yields
only items with relevance_score 0. -/
theorem retrieve_evidence_spec (log sqrt : ℚ → ℚ) (chunks : List Chunk)
    (claimText : String) (topK : Nat)
    (hpos : chunks.Pairwise fun a b => a.position < b.position) :
    (retrieve_evidence_for_claim log sqrt chunks claimText topK).length ≤ topK ∧
    (retrieve_evidence_for_claim log sqrt chunks claimText topK).Pairwise
      (fun a b => b.relevance_score ≤ a.relevance_score ∧
        (a.relevance_score = b.relevance_score → a.position < b.position)) ∧
    (chunks = [] → retrieve_evidence_for_claim log sqrt chunks claimText topK = []) ∧
    (claimText = "" →
      ∀ e ∈ retrieve_evidence_for_claim log sqrt chunks claimText topK,
        e.relevance_score = 0) := by
  by_cases hemp : chunks = []
  · subst hemp
    refine ⟨by simp [retrieve_evidence_for_claim], ?_, fun _ => rfl, ?_⟩
    · simp [retrieve_evidence_for_claim]
    · intro _ e he
      simp [retrieve_evidence_for_claim] at he
  · have hne : chunks.isEmpty = false := by simpa [List.isEmpty_iff] using hemp
    simp only [retrieve_evidence_for_claim, hne, Bool.false_eq_true, if_false]
    refine ⟨?_, ?_, fun h => absurd h hemp, ?_⟩
    · rw [List.length_take]
      exact min_le_left _ _
    · refine List.Pairwise.sublist (List.take_sublist _ _) ?_
      refine pairwise_sortDescBy (fun e : EvidenceItem => e.relevance_score)
        (fun e : EvidenceItem => e.position) _ ?_
      rw [List.pairwise_map]
      simpa using hpos
    · intro htext e he
      have he2 : e ∈ sortDescBy (fun e => e.relevance_score)
          (chunks.map fun ch =>
            ({ chunk_id := ch.chunk_id, text := ch.text, position := ch.position,
               relevance_score :=
                 cosine_similarity sqrt
                   (compute_tfidf_vector (tokenizeRetrieval claimText)
                     (compute_idf log ((chunks.map fun ch => tokenizeRetrieval ch.text)
                        ++ [tokenizeRetrieval claimText])))
                   (compute_tfidf_vector (tokenizeRetrieval ch.text)
                     (compute_idf log ((chunks.map fun ch => tokenizeRetrieval ch.text)
                        ++ [tokenizeRetrieval claimText]))) } : EvidenceItem)) :=
        List.mem_of_mem_take he
      have he3 := (mem_sortDescBy _ e _).mp he2
      rcases List.mem_map.mp he3 with ⟨ch, _, rfl⟩
      subst htext
      rfl

/-- C8 witness: the specification applied at a concrete two-passage
collection with concrete stand-ins for log and sqrt. -/
theorem retrieve_evidence_spec_witness :
    (retrieve_evidence_for_claim (fun _ => 0) (fun _ => 0)
        [⟨"c0", "a word", 0⟩, ⟨"c1", "other text", 1⟩] "" 6).length ≤ 6 ∧
    (retrieve_evidence_for_claim (fun _ => 0) (fun _ => 0)
        [⟨"c0", "a word", 0⟩, ⟨"c1", "other text", 1⟩] "" 6).Pairwise
      (fun a b => b.relevance_score ≤ a.relevance_score ∧
        (a.relevance_score = b.relevance_score → a.position < b.position)) ∧
    ([⟨"c0", "a word", 0⟩, ⟨"c1", "other text", 1⟩] = ([] : List Chunk) →
      retrieve_evidence_for_claim (fun _ => 0) (fun _ => 0)
        [⟨"c0", "a word", 0⟩, ⟨"c1", "other text", 1⟩] "" 6 = []) ∧
    ("" = "" →
      ∀ e ∈ retrieve_evidence_for_claim (fun _ => 0) (fun _ => 0)
          [⟨"c0", "a word", 0⟩, ⟨"c1", "other text", 1⟩] "" 6,
        e.relevance_score = 0) :=
  retrieve_evidence_spec (fun _ => 0) (fun _ => 0)
    [⟨"c0", "a word", 0⟩, ⟨"c1", "other text", 1⟩] "" 6 (by decide)

/-- Appending one digit multiplies the value by ten and adds the digit. -/
theorem digitsVal_append (l : List Char) (c : Char) :
    digitsVal (l ++ [c]) = 10 * digitsVal l + (c.toNat - 48) := by
  simp [digitsVal, List.foldl_append]

/-- Value of a single decimal digit character. -/
theorem digitChar_val (n : Nat) (h : n < 10) : (Nat.digitChar n).toNat - 48 = n := by
  interval_cases n <;> rfl

/-- The fuelled digit printer round-trips through `digitsVal`. -/
theorem digitsVal_natDigitsAux (fuel : Nat) :
    ∀ n, n < fuel → digitsVal (natDigitsAux fuel n) = n := by
  induction fuel with
  | zero => intro n h; omega
  | succ fuel ih =>
      intro n h
      by_cases h10 : n < 10
      · simp [natDigitsAux, h10, digitsVal, digitChar_val n h10]
      · have hdiv : n / 10 < fuel := by omega
        simp only [natDigitsAux, h10, if_false]
        rw [digitsVal_append, ih (n / 10) hdiv, digitChar_val (n % 10) (by omega)]
        omega

/-- The decimal printer round-trips through `digitsVal`. -/
theorem digitsVal_natDigits (n : Nat) : digitsVal (natDigits n) = n :=
  digitsVal_natDigitsAux (n + 1) n (by omega)

/-- Two derived split ids with the same base coincide only at the same part
index, provided the uuid stream yields values of at least 6 characters (as
`uuid4().hex`, which has 32, always does). -/
theorem derived_split_id_inj (base : String) (uuid : Nat → String)
    (hu : ∀ k, 6 ≤ (uuid k).length) (k0 i j : Nat)
    (h : base ++ "_split_" ++ natDecimal i ++ "_" ++ String.mk ((uuid (k0 + i)).toList.take 6) =
         base ++ "_split_" ++ natDecimal j ++ "_" ++ String.mk ((uuid (k0 + j)).toList.take 6)) :
    i = j := by
  have hu6 : ∀ k, ((uuid k).toList.take 6).length = 6 := by
    intro k
    rw [List.length_take]
    have h2 := hu k
    have h3 : (uuid k).toList.length = (uuid k).length := rfl
    omega
  have hdata := congrArg String.data h
  simp only [String.data_append, List.append_assoc] at hdata
  have h2 := List.append_cancel_left hdata
  have h3 := List.append_cancel_left h2
  have hdlen : (natDecimal i).data.length = (natDecimal j).data.length := by
    have hl := congrArg List.length h3
    simp only [List.length_append] at hl
    simp only [show ∀ k, (String.mk ((uuid k).toList.take 6)).data.length = 6 from
      fun k => hu6 k] at hl
    omega
  have htake := congrArg (List.take (natDecimal i).data.length) h3
  rw [List.take_left, hdlen, List.take_left] at htake
  have hdv := congrArg digitsVal htake
  have hi : (natDecimal i).data = natDigits i := rfl
  have hj : (natDecimal j).data = natDigits j := rfl
  rw [hi, hj, digitsVal_natDigits, digitsVal_natDigits] at hdv
  exact hdv

/-- C9: per-row claim repair is attempted exactly once. Validation success
skips repair; on a first validation failure the claims are repaired (claims
whose text contains a conjunction or comma are re-split, each part receiving
a derived id, distinct from the other parts of the same claim whenever the
uuid stream yields values of at least 6 characters) and validation is
retried; a second validation failure propagates its error, with no further
repair. -/
theorem process_row_repair_spec (uuid : Nat → String) (claims : List Claim)
    (hu : ∀ k, 6 ≤ (uuid k).length) :
    (validate_claims claims = .ok () → validate_and_repair uuid claims = .ok claims) ∧
    (∀ e, validate_claims claims = .error e →
      validate_claims (repair_claims uuid claims) = .ok () →
      validate_and_repair uuid claims = .ok (repair_claims uuid claims)) ∧
    (∀ e e2, validate_claims claims = .error e →
      validate_claims (repair_claims uuid claims) = .error e2 →
      validate_and_repair uuid claims = .error e2) ∧
    (∀ (c : Claim) (k0 : Nat), hasConjOrComma c.claim_text.toList = false →
      repairClaim uuid k0 c = [c]) ∧
    (∀ (c : Claim) (k0 : Nat), ((repairClaim uuid k0 c).map fun d => d.claim_id).Nodup) := by
  refine ⟨?_, ?_, ?_, ?_, ?_⟩
  · intro h
    simp [validate_and_repair, h]
  · intro e h1 h2
    simp [validate_and_repair, h1, h2]
  · intro e e2 h1 h2
    simp [validate_and_repair, h1, h2]
  · intro c k0 hno
    simp only [repairClaim]
    rw [if_neg (by simp only [Bool.not_eq_true]; exact hno)]
  · intro c k0
    by_cases hc : hasConjOrComma c.claim_text.toList = true
    · simp only [repairClaim]
      rw [if_pos hc, List.map_map]
      have hfstnd : ((repairParts c.claim_text.data).enum.map Prod.fst).Nodup := by
        rw [List.enum_map_fst]; exact List.nodup_range _
      apply List.Nodup.map_on
      · intro x hx y hy hxy
        have hfst : x.1 = y.1 :=
          derived_split_id_inj c.claim_id uuid hu k0 x.1 y.1 hxy
        exact List.inj_on_of_nodup_map hfstnd hx hy hfst
      · exact List.Nodup.of_map _ hfstnd
    · simp only [repairClaim]
      rw [if_neg hc]
      simp

/-- C9 witness: the empty claim set fails validation, its repair is empty and
fails again, and the error propagates; also a concrete repaired claim has
pairwise distinct derived part ids. -/
theorem process_row_repair_spec_witness :
    validate_and_repair (fun _ => "aaaaaaaa") [] = .error .emptyList ∧
    ((repairClaim (fun _ => "aaaaaaaa") 0
        { claim_id := "b", claim_type := "formative_experience",
          claim_text := "He ran fast, and he jumped high", confidence := 0.7,
          core_trait := false }).map fun d => d.claim_id).Nodup := by
  have h := process_row_repair_spec (fun _ => "aaaaaaaa") []
    (by intro k; show 6 ≤ ("aaaaaaaa" : String).length; decide)
  exact ⟨h.2.2.1 .emptyList .emptyList rfl rfl, h.2.2.2.2 _ 0⟩

/-- C10: every verdict returned by `evaluate_claim` carries exactly the four
keys claim_id, status, supporting_evidence and contradicting_evidence (the
fields of `Verdict`) and no core_trait key, so in the composed pipeline the
core-trait rejection branch of `decide_backstory_consistency` is never taken
(its rationale never appears), and a run whose verdicts contain at most one
FAIL — in particular a backstory whose only failed claim is a core-trait
claim — is accepted with label 1. -/
theorem pipeline_core_branch_unreachable (pairs : List (Claim × List EvidenceItem)) :
    (decide_backstory_consistency
        ((pairs.map fun p => evaluate_claim p.1 p.2).map verdictToDecisionInput)).rationale ≠
      "Core backstory claim contradicted by narrative evidence" ∧
    (((pairs.map fun p => evaluate_claim p.1 p.2).map verdictToDecisionInput).countP
        (fun c => c.status == "FAIL") ≤ 1 →
      decide_backstory_consistency
          ((pairs.map fun p => evaluate_claim p.1 p.2).map verdictToDecisionInput) =
        { label := 1, rationale := "No decisive contradictions found" }) := by
  set ds := (pairs.map fun p => evaluate_claim p.1 p.2).map verdictToDecisionInput with hds
  have hnone : ∀ d ∈ ds, d.core_trait = none := by
    intro d hd
    rcases List.mem_map.mp hd with ⟨v, _, rfl⟩
    rfl
  have hfc : ds.filter (fun c => c.status == "FAIL" && c.core_trait.getD false) = [] :=
    List.filter_eq_nil_iff.mpr fun d hd => by simp [hnone d hd]
  have hnc : (ds.filter fun c => c.status == "FAIL" && !(c.core_trait.getD false)) =
      ds.filter fun c => c.status == "FAIL" := by
    apply List.filter_congr
    intro d hd
    simp [hnone d hd]
  constructor
  · simp only [decide_backstory_consistency, hfc]
    by_cases h2 : 2 ≤ (ds.filter fun c => c.status == "FAIL" && !(c.core_trait.getD false)).length
    · simp [h2]
    · simp [h2]
  · intro hle
    simp only [decide_backstory_consistency, hfc]
    have : (ds.filter fun c => c.status == "FAIL" && !(c.core_trait.getD false)).length ≤ 1 := by
      rw [hnc]
      rw [List.countP_eq_length_filter] at hle
      exact hle
    have h2 : ¬ 2 ≤ (ds.filter fun c => c.status == "FAIL" && !(c.core_trait.getD false)).length := by
      omega
    simp [h2]

/-- C10 witness: the acceptance clause applied at a single claim-evidence
pair (whose verdict is the only one, hence at most one FAIL). -/
theorem pipeline_core_branch_unreachable_witness :
    decide_backstory_consistency
        (([({ claim_id := "c1", claim_type := "formative_experience",
              claim_text := "", confidence := 1, core_trait := true },
            ([] : List EvidenceItem))].map
            fun p => evaluate_claim p.1 p.2).map verdictToDecisionInput) =
      { label := 1, rationale := "No decisive contradictions found" } :=
  (pipeline_core_branch_unreachable _).2 (by decide)

/-- Head of a non-empty dropWhile result fails the predicate. -/
theorem dropWhile_head_false {α : Type} {p : α → Bool} :
    ∀ {l : List α} {a : α} {t : List α}, l.dropWhile p = a :: t → p a = false := by
  intro l
  induction l with
  | nil => intro a t h; cases h
  | cons c rest ih =>
      intro a t h
      rw [List.dropWhile_cons] at h
      by_cases hc : p c
      · rw [if_pos hc] at h
        exact ih h
      · rw [if_neg hc] at h
        cases h
        simpa using hc

/-- Stripping yields the empty string exactly on all-whitespace input. -/
theorem stripChars_eq_nil_iff (l : List Char) :
    stripChars l = [] ↔ ∀ x ∈ l, isSpaceChar x = true := by
  unfold stripChars
  rw [List.reverse_eq_nil_iff, List.dropWhile_eq_nil_iff]
  constructor
  · intro h x hx
    by_cases hd : l.dropWhile isSpaceChar = []
    · exact List.dropWhile_eq_nil_iff.mp hd x hx
    · obtain ⟨a, t, ha⟩ := List.exists_cons_of_ne_nil hd
      have hpa : isSpaceChar a = false := dropWhile_head_false ha
      have hmem : a ∈ (l.dropWhile isSpaceChar).reverse := by rw [ha]; simp
      have h2 := h a hmem
      rw [hpa] at h2
      cases h2
  · intro h x hx
    have hx2 : x ∈ l.dropWhile isSpaceChar := by simpa using hx
    exact h x ((List.dropWhile_sublist isSpaceChar).mem hx2)

/-- The passage about broken promises does not register as contradicting the
promise-keeping claim: the token sets are disjoint (promises vs promise), so
the overlap ratio is 0 and neither contradiction branch fires. -/
theorem c3_contr : detect_contradiction_patterns "He always keeps his promises."
    "He broke every promise he made." = false := by
  have hov : (tokenize_for_matching "He always keeps his promises.").filter
      ((tokenize_for_matching "He broke every promise he made.").contains ·) = [] := by decide
  have hne : ¬(tokenize_for_matching "He always keeps his promises." = []) := by decide
  simp only [detect_contradiction_patterns, hov, if_neg hne]
  norm_num

/-- The passage about broken promises does not register as supporting the
promise-keeping claim either (overlap ratio 0). -/
theorem c3_supp : detect_support_patterns "He always keeps his promises."
    "He broke every promise he made." = false := by
  have hov : (tokenize_for_matching "He always keeps his promises.").filter
      ((tokenize_for_matching "He broke every promise he made.").contains ·) = [] := by decide
  have hne : ¬(tokenize_for_matching "He always keeps his promises." = []) := by decide
  simp only [detect_support_patterns, hov, if_neg hne]
  norm_num

/-- Evaluating the promise-keeping claim against exactly the broken-promises
passage yields an UNKNOWN verdict with empty evidence lists. -/
theorem c3_eval (ev : EvidenceItem)
    (htext : ev.text = "He broke every promise he made.") (c : Claim)
    (hct : c.claim_text = "He always keeps his promises.") :
    evaluate_claim c [ev] = (⟨c.claim_id, "UNKNOWN", [], []⟩ : Verdict) := by
  simp only [evaluate_claim, hct, classifyEvidence, htext, c3_contr, c3_supp]
  norm_num

/-- Decomposing the promise-keeping backstory yields exactly one claim, with
fields as computed by the decomposer. -/
theorem c3_decompose (hashHex : String → String) :
    decompose hashHex "He always keeps his promises." =
      [⟨generate_claim_id hashHex "He always keeps his promises.".toList 0,
        categorize_claim "He always keeps his promises.".toList,
        "He always keeps his promises.",
        calculate_confidence "He always keeps his promises.".toList,
        is_core_trait "He always keeps his promises.".toList⟩] := rfl

/-- The decomposed promise-keeping claim passes individual validation for
every hash function stand-in. -/
theorem c3_claim_valid (hashHex : String → String) :
    validateClaimField
      ⟨generate_claim_id hashHex "He always keeps his promises.".toList 0,
        categorize_claim "He always keeps his promises.".toList,
        "He always keeps his promises.",
        calculate_confidence "He always keeps his promises.".toList,
        is_core_trait "He always keeps his promises.".toList⟩ = none := by
  have h1 : (stripChars (generate_claim_id hashHex
      "He always keeps his promises.".toList 0).toList).isEmpty = false := by
    rw [Bool.eq_false_iff]
    intro hemp
    rw [List.isEmpty_iff, stripChars_eq_nil_iff] at hemp
    have hc : 'c' ∈ (generate_claim_id hashHex
        "He always keeps his promises.".toList 0).toList := by
      show 'c' ∈ ("claim_" ++
        String.mk ((hashHex (String.mk "He always keeps his promises.".toList
          ++ "_" ++ natDecimal 0)).toList.take 12)).data
      rw [String.data_append]
      exact List.mem_append_left _ (by decide)
    have := hemp 'c' hc
    simp [isSpaceChar] at this
  have h2 : allowedClaimTypes.contains
      (categorize_claim "He always keeps his promises.".toList) = true := by decide
  have h3 : (stripChars ("He always keeps his promises." : String).toList).isEmpty
      = false := by decide
  have h4 : check_atomicity_ok ("He always keeps his promises." : String).toList
      = true := by decide
  have h5a : (0 : ℚ) ≤ calculate_confidence "He always keeps his promises.".toList := by
    simp only [calculate_confidence]
    exact le_max_left 0 _
  have h5b : calculate_confidence "He always keeps his promises.".toList ≤ 1 := by
    simp only [calculate_confidence]
    exact max_le (by norm_num) (min_le_left 1 _)
  simp only [validateClaimField, h1, h2, h3, h4, h5a, h5b]
  norm_num

/-- The full pipeline on the promise-keeping backstory against the single
broken-promises passage accepts with label 1, for every choice of the
abstracted hash, uuid, log and sqrt functions. -/
theorem c3_pipeline (hashHex : String → String) (uuid : Nat → String)
    (log sqrt : ℚ → ℚ) :
    process_backstory hashHex uuid log sqrt
        [⟨"chunk_0", "He broke every promise he made.", 0⟩]
        "He always keeps his promises." =
      .ok ⟨1, "No decisive contradictions found"⟩ := by
  have hf : findClaimErrorFrom 0
      [⟨generate_claim_id hashHex "He always keeps his promises.".toList 0,
        categorize_claim "He always keeps his promises.".toList,
        "He always keeps his promises.",
        calculate_confidence "He always keeps his promises.".toList,
        is_core_trait "He always keeps his promises.".toList⟩] = none := by
    rw [findClaimErrorFrom, c3_claim_valid hashHex]
    rfl
  have hval : validate_claims
      [⟨generate_claim_id hashHex "He always keeps his promises.".toList 0,
        categorize_claim "He always keeps his promises.".toList,
        "He always keeps his promises.",
        calculate_confidence "He always keeps his promises.".toList,
        is_core_trait "He always keeps his promises.".toList⟩] = .ok () := by
    simp only [validate_claims, List.isEmpty_cons, Bool.false_eq_true, if_false, hf]
    rfl
  obtain ⟨s, hretr⟩ : ∃ s, retrieve_evidence_for_claim log sqrt
      [⟨"chunk_0", "He broke every promise he made.", 0⟩]
      "He always keeps his promises." 6 =
      [⟨"chunk_0", "He broke every promise he made.", 0, s⟩] := ⟨_, rfl⟩
  have hev := c3_eval ⟨"chunk_0", "He broke every promise he made.", 0, s⟩ rfl
    ⟨generate_claim_id hashHex "He always keeps his promises.".toList 0,
      categorize_claim "He always keeps his promises.".toList,
      "He always keeps his promises.",
      calculate_confidence "He always keeps his promises.".toList,
      is_core_trait "He always keeps his promises.".toList⟩ rfl
  simp only [process_backstory, c3_decompose hashHex, validate_and_repair, hval,
    List.map_cons, List.map_nil, hretr, hev, verdictToDecisionInput]
  rfl

/-- The decomposed claim evaluates to status UNKNOWN against the evidence
retrieved from the single broken-promises passage. -/
theorem c3_status (hashHex : String → String) (log sqrt : ℚ → ℚ) :
    ((decompose hashHex "He always keeps his promises.").map fun c =>
      (evaluate_claim c (retrieve_evidence_for_claim log sqrt
        [⟨"chunk_0", "He broke every promise he made.", 0⟩] c.claim_text 6)).status) =
      ["UNKNOWN"] := by
  rw [c3_decompose hashHex, List.map_cons, List.map_nil]
  dsimp only
  obtain ⟨s, hretr⟩ : ∃ s, retrieve_evidence_for_claim log sqrt
      [⟨"chunk_0", "He broke every promise he made.", 0⟩]
      "He always keeps his promises." 6 =
      [⟨"chunk_0", "He broke every promise he made.", 0, s⟩] := ⟨_, rfl⟩
  rw [hretr, c3_eval _ rfl _ rfl]

/-- C3 counterexample: with concrete stand-ins for the abstracted hash, uuid,
log and sqrt functions, the pipeline on backstory "He always keeps his
promises." against a narrative consisting of the passage "He broke every
promise he made." evaluates its one claim as UNKNOWN — not FAIL — and
decides label 1 — not 0: after tokenization the claim tokens
{always, keeps, his, promises} and passage tokens {broke, every, promise,
made} are disjoint, so the overlap ratio is 0 and no contradiction fires. -/
theorem promises_example_counterexample :
    ((decompose (fun _ => "0123456789abcdef") "He always keeps his promises.").map fun c =>
      (evaluate_claim c (retrieve_evidence_for_claim (fun _ => 0) (fun _ => 0)
        [⟨"chunk_0", "He broke every promise he made.", 0⟩] c.claim_text 6)).status) =
      ["UNKNOWN"] ∧
    process_backstory (fun _ => "0123456789abcdef") (fun _ => "aaaaaa")
        (fun _ => 0) (fun _ => 0)
        [⟨"chunk_0", "He broke every promise he made.", 0⟩]
        "He always keeps his promises." =
      .ok ⟨1, "No decisive contradictions found"⟩ :=
  ⟨c3_status (fun _ => "0123456789abcdef") (fun _ => 0) (fun _ => 0),
   c3_pipeline (fun _ => "0123456789abcdef") (fun _ => "aaaaaa") (fun _ => 0) (fun _ => 0)⟩

/-- C3 amended: for the backstory "He always keeps his promises." processed
against a narrative whose single passage is "He broke every promise he
made.", the pipeline (decompose, retrieve, evaluate, aggregate) evaluates
the claim as UNKNOWN — the token overlap is empty because "promises" and
"promise" differ after tokenization and the passage contains no negation or
contrast keyword — and the final decision has label 1, for every choice of
the abstracted hash, uuid, log and sqrt functions. -/
theorem promises_example_amended (hashHex : String → String) (uuid : Nat → String)
    (log sqrt : ℚ → ℚ) :
    ((decompose hashHex "He always keeps his promises.").map fun c =>
      (evaluate_claim c (retrieve_evidence_for_claim log sqrt
        [⟨"chunk_0", "He broke every promise he made.", 0⟩] c.claim_text 6)).status) =
      ["UNKNOWN"] ∧
    process_backstory hashHex uuid log sqrt
        [⟨"chunk_0", "He broke every promise he made.", 0⟩]
        "He always keeps his promises." =
      .ok ⟨1, "No decisive contradictions found"⟩ :=
  ⟨c3_status hashHex log sqrt, c3_pipeline hashHex uuid log sqrt⟩

/-- C3 witness: the amended statement applied at concrete stand-ins. -/
theorem promises_example_amended_witness :
    ((decompose (fun _ => "w") "He always keeps his promises.").map fun c =>
      (evaluate_claim c (retrieve_evidence_for_claim (fun q => q) (fun q => q)
        [⟨"chunk_0", "He broke every promise he made.", 0⟩] c.claim_text 6)).status) =
      ["UNKNOWN"] ∧
    process_backstory (fun _ => "w") (fun _ => "u") (fun q => q) (fun q => q)
        [⟨"chunk_0", "He broke every promise he made.", 0⟩]
        "He always keeps his promises." =
      .ok ⟨1, "No decisive contradictions found"⟩ :=
  promises_example_amended (fun _ => "w") (fun _ => "u") (fun q => q) (fun q => q)

end Backstory
